import Mathlib

/-!
Verification development for the BigFileUpload Vencord plugin.

The definitions below are a shallow embedding of the plugin's native upload
module (`src/unnamed/part_001`) and its renderer-side progress registry
(`src/unnamed/part_000`).  JavaScript strings are modelled as Lean `String`,
JS `Record<string, string>` objects as association lists in insertion order,
JS `Map`/`Set` as insertion-ordered association lists / lists, and platform
primitives (the network, `JSON.parse`) as explicit oracle parameters.
-/

namespace BigFileUpload

/-! ## Generic string helpers (modelling JS string primitives) -/

/-- Whitespace as used by JS `trim` (we model the common ASCII cases). -/
def isJsSpace (c : Char) : Bool :=
  c = ' ' || c = '\t' || c = '\n' || c = '\r' || c = '\x0b' || c = '\x0c'

/-- JS `String.prototype.trim` on the char-list representation. -/
def trimChars (cs : List Char) : List Char :=
  ((cs.dropWhile isJsSpace).reverse.dropWhile isJsSpace).reverse

/-- JS `String.prototype.trim`. -/
def trimStr (s : String) : String := String.mk (trimChars s.toList)

/-- JS `String.prototype.toLowerCase` (ASCII case folding). -/
def toLowerStr (s : String) : String := String.mk (s.toList.map Char.toLower)

/-- JS `String.prototype.startsWith`. -/
def startsWithStr (s pat : String) : Bool := pat.toList.isPrefixOf s.toList

/-- JS `String.prototype.endsWith`. -/
def endsWithStr (s pat : String) : Bool := pat.toList.isSuffixOf s.toList

/-- Does `pat` occur as a contiguous substring of `cs`? (JS `includes`). -/
def containsSubList (pat : List Char) : List Char → Bool
  | [] => pat.isEmpty
  | c :: cs => pat.isPrefixOf (c :: cs) || containsSubList pat cs

/-- JS `String.prototype.includes`. -/
def containsSub (s pat : String) : Bool := containsSubList pat.toList s.toList

/-- JS `String.prototype.includes` for a single character. -/
def strContainsChar (s : String) (c : Char) : Bool := s.toList.contains c

/-- JS `String.prototype.substring(0, n)`. -/
def takeStr (n : Nat) (s : String) : String := String.mk (s.toList.take n)

/-- Split a char list at the first occurrence of `pat` (which must be
nonempty); returns the parts before and after the separator. -/
def splitOnceList (pat : List Char) : List Char → Option (List Char × List Char)
  | [] => none
  | c :: cs =>
    if pat.isPrefixOf (c :: cs) then some ([], (c :: cs).drop pat.length)
    else
      match splitOnceList pat cs with
      | some (pre, post) => some (c :: pre, post)
      | none => none

/-! ## Header sanitization (`sanitizeHeaders`, part_001 lines 168-220) -/

/-- Dangerous headers that should not be set by users (security risk);
`BLOCKED_HEADERS` from the source, in source order. -/
def BLOCKED_HEADERS : List String :=
  ["host", "connection", "upgrade", "proxy-authorization", "proxy-connection",
   "te", "trailer", "transfer-encoding", "keep-alive", "expect", "cookie",
   "set-cookie", "authorization", "www-authenticate", "x-forwarded-for",
   "x-forwarded-host", "x-forwarded-proto", "x-real-ip", "forwarded"]

/-- `key.toLowerCase().trim()` as computed for each header key. -/
def lowerTrimKey (k : String) : String := trimStr (toLowerStr k)

/-- `sanitizeHeaders` from the source.  A JS `Record<string, string>` is
modelled as an association list in `Object.entries` order; each entry is
kept exactly under the source's conditions: its lowercased-trimmed key is
not blocked, the key is not empty (JS falsy check plus trim check), and the
value contains neither a line feed nor a carriage return. -/
def sanitizeHeaders : List (String × String) → List (String × String)
  | [] => []
  | (key, value) :: rest =>
    let lowerKey := lowerTrimKey key
    if BLOCKED_HEADERS.contains lowerKey then sanitizeHeaders rest
    else if key = "" || trimStr key = "" then sanitizeHeaders rest
    else if !(strContainsChar value '\n') && !(strContainsChar value '\r') then
      (key, value) :: sanitizeHeaders rest
    else sanitizeHeaders rest

/-! ## URL validation (`isPrivateOrReservedIP`, `validateUploadUrl`,
part_001 lines 64-163) -/

/-- Split a char list at every occurrence of the character `sep`
(JS `String.prototype.split` with a single-character separator). -/
def splitAllOn (sep : Char) (cs : List Char) : List (List Char) :=
  cs.foldr
    (fun c acc =>
      match acc with
      | g :: gs => if c = sep then [] :: g :: gs else (c :: g) :: gs
      | [] => [[c]])
    [[]]

/-- Decimal value of a digit string (JS `Number` on an all-digit group). -/
def digitsToNat (cs : List Char) : Nat :=
  cs.foldl (fun n c => n * 10 + (c.toNat - '0'.toNat)) 0

/-- The IPv4 dotted-quad regex of the source: four groups of one to three
decimal digits, returned as the four numeric octets. -/
def ipv4Octets (s : String) : Option (Nat × Nat × Nat × Nat) :=
  match splitAllOn '.' s.toList with
  | [p1, p2, p3, p4] =>
    if [p1, p2, p3, p4].all
        (fun p => decide (1 ≤ p.length) && decide (p.length ≤ 3) && p.all Char.isDigit) then
      some (digitsToNat p1, digitsToNat p2, digitsToNat p3, digitsToNat p4)
    else none
  | _ => none

/-- `isPrivateOrReservedIP` from the source: localhost names, the private /
loopback / link-local / reserved IPv4 ranges (only the first two octets are
inspected by the source's range checks), and the textual IPv6 loopback,
link-local and unique-local forms. -/
def isPrivateOrReservedIP (hostname : String) : Bool :=
  if hostname = "localhost" || hostname = "localhost.localdomain" then true
  else
    let ipv4Hit :=
      match ipv4Octets hostname with
      | some (a, b, _, _) =>
        a = 127 || a = 10 || (a = 172 && 16 ≤ b && b ≤ 31) ||
        (a = 192 && b = 168) || (a = 169 && b = 254) || a = 0 || a = 255
      | none => false
    if ipv4Hit then true
    else if hostname = "::1" || hostname = "[::1]" then true
    else if startsWithStr hostname "fe80:" || startsWithStr hostname "[fe80:" then true
    else if startsWithStr hostname "fc" || startsWithStr hostname "[fc" ||
            startsWithStr hostname "fd" || startsWithStr hostname "[fd" then true
    else false

/-- Model of the WHATWG `new URL(url)` constructor restricted to what
`validateUploadUrl` reads: the scheme (returned with its trailing colon,
as JS `protocol`) and the hostname (lowercased; for a bracketed IPv6
authority the brackets are kept, as JS does).  Non-hierarchical or
malformed inputs yield `none`, modelling the constructor throwing. -/
def parseUrlModel (s : String) : Option (String × String) :=
  match splitOnceList "://".toList s.toList with
  | none => none
  | some (schemeCs, restCs) =>
    let schemeOk :=
      match schemeCs with
      | [] => false
      | c :: cs => c.isAlpha && cs.all (fun d => d.isAlpha || d.isDigit || d = '+' || d = '-' || d = '.')
    if !schemeOk then none
    else
      let authority := restCs.takeWhile (fun c => c ≠ '/' && c ≠ '?' && c ≠ '#')
      let hostPort :=
        match splitOnceList ['@'] authority with
        | some (_, after) => after
        | none => authority
      let host :=
        match hostPort with
        | '[' :: rest => '[' :: ((rest.takeWhile (fun c => c ≠ ']')) ++ [']'])
        | _ => hostPort.takeWhile (fun c => c ≠ ':')
      if host.isEmpty then none
      else some (String.mk (schemeCs.map Char.toLower) ++ ":", String.mk (host.map Char.toLower))

/-- `validateUploadUrl` from the source: the URL must parse, use http or
https, have a hostname of length at least 3 that is not a private or
reserved address, not be a purely numeric hostname, and contain a dot. -/
def validateUploadUrl (url : String) : Bool :=
  if url = "" then false
  else
    match parseUrlModel url with
    | none => false
    | some (protocol, hostname) =>
      if protocol ≠ "http:" && protocol ≠ "https:" then false
      else if hostname = "" || hostname.length < 3 then false
      else if isPrivateOrReservedIP hostname then false
      else if hostname.toList.all Char.isDigit then false
      else if !(hostname.toList.contains '.') then false
      else true

/-! ## JS Map / ordered association-list helpers -/

/-- JS `Map.prototype.has` / object key presence. -/
def mapHas (m : List (String × α)) (k : String) : Bool := (m.lookup k).isSome

/-- JS `Map.prototype.set`: update in place preserving insertion order,
append when the key is new. -/
def mapSet : List (String × α) → String → α → List (String × α)
  | [], k, v => [(k, v)]
  | (k0, v0) :: rest, k, v =>
    if k0 = k then (k0, v) :: rest else (k0, v0) :: mapSet rest k v

/-- JS `Map.prototype.delete` (keys are unique in a `Map`). -/
def mapDelete : List (String × α) → String → List (String × α)
  | [], _ => []
  | (k0, v0) :: rest, k =>
    if k0 = k then rest else (k0, v0) :: mapDelete rest k

/-! ## Progress registry (renderer side, part_000) -/

/-- The `UploadProgress` record of the progress module.  `percent`, `speed`
and `eta` are JS numbers, modelled as rationals. -/
structure UploadProgress where
  uploadId : String
  fileName : String
  loaded : Nat
  total : Nat
  percent : Rat
  speed : Rat
  eta : Rat
  transferred : Nat
deriving DecidableEq

/-- The module-level mutable state of the progress registry
(`activeUploads`, `currentUploadId`, `isComplete`, `completionLogReported`,
`isDispatched`, `forceHide`, `totalFiles`, `completedFiles`). -/
structure ProgressState where
  activeUploads : List (String × UploadProgress)
  currentUploadId : Option String
  isComplete : Bool
  completionLogReported : Bool
  isDispatched : Bool
  forceHide : Bool
  totalFiles : Nat
  completedFiles : Nat
deriving DecidableEq

/-- The registry state at module load. -/
def initialProgressState : ProgressState :=
  { activeUploads := [], currentUploadId := none, isComplete := false,
    completionLogReported := false, isDispatched := false, forceHide := false,
    totalFiles := 0, completedFiles := 0 }

/-- `activeUploads.keys().next().value || null`: the first key in insertion
order, with the JS falsy coercion mapping the empty-string key to `null`. -/
def firstKeyOrNull (m : List (String × UploadProgress)) : Option String :=
  match m.head? with
  | some (k, _) => if k = "" then none else some k
  | none => none

/-- `completedFiles++` followed by the cap-at-`totalFiles` validation. -/
def bumpCompleted (completed total : Nat) : Nat :=
  let c := completed + 1
  if c > total && total > 0 then total else c

/-- `completeUpload(uploadId)`: remove the upload from the active set,
bump the completed counter, and either mark the batch complete (when no
active uploads remain) or switch the displayed upload. -/
def completeUpload (uploadId : String) (s : ProgressState) : ProgressState :=
  if !(mapHas s.activeUploads uploadId) then s
  else
    let active := mapDelete s.activeUploads uploadId
    let completed := bumpCompleted s.completedFiles s.totalFiles
    if active.isEmpty then
      { s with activeUploads := active, completedFiles := completed,
               isComplete := true, completionLogReported := false }
    else
      let cur :=
        if s.currentUploadId = some uploadId then firstKeyOrNull active
        else s.currentUploadId
      { s with activeUploads := active, completedFiles := completed,
               currentUploadId := cur }

/-- `completeAndDispatch(uploadId)`: like `completeUpload`, but when the
removed upload was the last active one, `isComplete` and `isDispatched` are
both set in the same synchronous update. -/
def completeAndDispatch (uploadId : String) (s : ProgressState) : ProgressState :=
  if !(mapHas s.activeUploads uploadId) then s
  else
    let active := mapDelete s.activeUploads uploadId
    let completed := bumpCompleted s.completedFiles s.totalFiles
    if active.isEmpty then
      { s with activeUploads := active, completedFiles := completed,
               isComplete := true, isDispatched := true,
               completionLogReported := false }
    else
      let cur :=
        if s.currentUploadId = some uploadId then firstKeyOrNull active
        else s.currentUploadId
      { s with activeUploads := active, completedFiles := completed,
               currentUploadId := cur }

/-- `markDispatched()`: sets the dispatched flag unconditionally. -/
def markDispatched (s : ProgressState) : ProgressState :=
  { s with isDispatched := true }

/-- `clearGlobalState()`: reset every module-level field. -/
def clearGlobalState (_s : ProgressState) : ProgressState := initialProgressState

/-- `setForceHide(value)`. -/
def setForceHide (value : Bool) (s : ProgressState) : ProgressState :=
  { s with forceHide := value }

/-- `clearAndForceHide()`: set `forceHide` and then clear the state (the
delayed `forceHide` reset runs asynchronously and is not part of this
synchronous operation). -/
def clearAndForceHide (s : ProgressState) : ProgressState :=
  clearGlobalState (setForceHide true s)

/-- `startUploadBatch(fileCount)`: clear stale completion state, then
either add to a batch already in progress or start a fresh batch.  (The
immediate async poll at the end of the source function is a separate
scheduled task, not part of the synchronous operation.) -/
def startUploadBatch (fileCount : Nat) (s : ProgressState) : ProgressState :=
  let s1 := if s.isComplete then clearGlobalState s else s
  if !s1.activeUploads.isEmpty && !s1.isComplete then
    { s1 with totalFiles := s1.totalFiles + fileCount }
  else
    { s1 with totalFiles := fileCount, completedFiles := 0,
              isComplete := false, isDispatched := false,
              completionLogReported := false, forceHide := false }

/-- `switchToUpload(uploadId)`. -/
def switchToUpload (uploadId : String) (s : ProgressState) : ProgressState :=
  if mapHas s.activeUploads uploadId then { s with currentUploadId := some uploadId }
  else s

/-- One tick of the 250 ms polling loop when the native layer returned a
progress record: conditionally store the sample and select a displayed
upload (the body of `startProgressPolling`'s interval callback). -/
def pollUpdate (p : UploadProgress) (s : ProgressState) : ProgressState :=
  let existing := s.activeUploads.lookup p.uploadId
  let isNewUpload := existing.isNone
  let percentChange : Rat :=
    match existing with
    | some e => |p.percent - e.percent|
    | none => 100
  let isSignificantChange := 1 ≤ percentChange
  let isCompletionOrStart := 100 ≤ p.percent || p.percent = 0
  let active :=
    if isNewUpload || isSignificantChange || isCompletionOrStart then
      mapSet s.activeUploads p.uploadId { p with transferred := p.loaded }
    else s.activeUploads
  let cur :=
    match s.currentUploadId with
    | none => some p.uploadId
    | some c => if mapHas active c then some c else some p.uploadId
  { s with activeUploads := active, currentUploadId := cur }

/-- One tick of the polling loop when the native layer returned no
progress: forget the displayed upload when nothing is active. -/
def pollNoProgress (s : ProgressState) : ProgressState :=
  if !s.isComplete && s.activeUploads.isEmpty then { s with currentUploadId := none }
  else s

/-- `cancelUploadTracking(uploadId)` after the native cancel resolved with
the given success flag: on success remove the upload and, when it was the
displayed one with no successor, clear everything. -/
def cancelUploadTracking (nativeSuccess : Bool) (uploadId : String)
    (s : ProgressState) : ProgressState :=
  if !nativeSuccess then s
  else
    let active := mapDelete s.activeUploads uploadId
    if s.currentUploadId = some uploadId then
      match firstKeyOrNull active with
      | none => clearGlobalState { s with activeUploads := active, currentUploadId := none }
      | some k => { s with activeUploads := active, currentUploadId := some k }
    else { s with activeUploads := active }

/-- A state transformer preserves the claim's batch-flag implication
(`isDispatched` implies `isComplete`). -/
def preservesDispatchImpliesComplete (f : ProgressState → ProgressState) : Prop :=
  ∀ s : ProgressState, (s.isDispatched = true → s.isComplete = true) →
    ((f s).isDispatched = true → (f s).isComplete = true)

/-! ## Streaming transport: response accumulation and completion
(part_001, the response handlers shared by `streamFileUpload`,
`streamFilePutUpload` and `streamFileBinaryCustom`) -/

/-- Security cap on the accumulated response body (1 MiB). -/
def MAX_RESPONSE_SIZE : Nat := 1 * 1024 * 1024

/-- One `res.on("data")` event: the state is the accumulated
`responseData` and the `responseTruncated` flag; a chunk that would push
the accumulation past `MAX_RESPONSE_SIZE` is dropped and the truncation
flag set. -/
def responseDataStep (st : String × Bool) (chunk : String) : String × Bool :=
  if st.1.length + chunk.length > MAX_RESPONSE_SIZE then (st.1, true)
  else (st.1 ++ chunk, st.2)

/-- The accumulated response after a sequence of data events. -/
def accumulateResponse (chunks : List String) : String × Bool :=
  chunks.foldl responseDataStep ("", false)

/-- Outcome of the `res.on("end")` handler. -/
inductive ResponseEndOutcome where
  | cancelled
  | truncatedError (msg : String)
  | ok (body : String)
  | httpError (msg : String)
deriving DecidableEq

/-- The status-code-specific error message of `streamFileUpload`'s end
handler, with the short server response appended when present. -/
def httpErrorMessage (statusCode : Nat) (responseData : String) : String :=
  let base :=
    if statusCode = 500 then
      "HTTP 500: Server Internal Error - The upload service is experiencing issues. This is a server-side problem, not a client error."
    else if statusCode = 502 || statusCode = 503 || statusCode = 504 then
      "HTTP " ++ toString statusCode ++ ": Service Unavailable - The upload service is temporarily down or overloaded."
    else if statusCode = 429 then
      "HTTP 429: Rate Limited - Too many requests. Please wait before trying again."
    else if statusCode = 413 then
      "HTTP 413: File Too Large - The file exceeds the service's size limit."
    else if 400 ≤ statusCode && statusCode < 500 then
      "HTTP " ++ toString statusCode ++ ": Client Error"
    else "HTTP " ++ toString statusCode
  if responseData ≠ "" && responseData.length < 500 then
    base ++ "\nServer response: " ++ responseData
  else base

/-- The `res.on("end")` handler of `streamFileUpload`: cancellation is
checked first, then truncation (rejected whatever the status code), then
a 2xx status resolves with the body and anything else rejects with a
classified message.  A missing JS `statusCode` is modelled as `0`. -/
def responseEnd (uploadCancelled : Bool) (truncated : Bool) (statusCode : Nat)
    (responseData : String) : ResponseEndOutcome :=
  if uploadCancelled then .cancelled
  else if truncated then
    .truncatedError ("Response exceeded maximum size (" ++ toString MAX_RESPONSE_SIZE ++
      " bytes) and was truncated. The upload may have succeeded but the response could not be processed.")
  else if 200 ≤ statusCode && statusCode < 300 then .ok responseData
  else .httpError (httpErrorMessage statusCode responseData)

/-! ## Streaming transport: precondition phase (part_001 lines 1102-1122
of `streamFileUpload`; the same checks open `streamFilePutUpload` and
`streamFileBinaryCustom`) -/

/-- What the transport can observe about the local file before any
network I/O. -/
structure FileInfo where
  fileExists : Bool
  size : Nat
  readable : Bool
deriving DecidableEq

/-- The precondition checks run at the top of the streaming functions, in
source order, with the source's error messages. -/
def preconditionError (f : FileInfo) (filePath : String) : Option String :=
  if !f.fileExists then some ("File not found: " ++ filePath)
  else if f.size = 0 then some ("File is empty (0 bytes): " ++ filePath)
  else if !f.readable then some ("File is not readable: " ++ filePath)
  else none

/-- Result of starting a streaming upload: either a precondition rejection
issued before the request is created, or the outcome of the actual network
exchange (an oracle, since the network is outside the program). -/
inductive TransportOutcome where
  | preFail (msg : String)
  | netResult (body : Except String String)

/-- The head of `streamFileUpload`: the precondition checks run and
reject before `client.request` is ever invoked; only when they pass is
the network consulted. -/
def streamFileUploadStart (f : FileInfo) (filePath : String)
    (net : Unit → Except String String) : TransportOutcome :=
  match preconditionError f filePath with
  | some e => .preFail e
  | none => .netResult (net ())

/-- Recognizer for the transport's precondition error messages, plus the
unconfigured-custom-endpoint error thrown by the orchestrator's `Custom`
branch. -/
def isPreconditionErrorMsg (m : String) : Bool :=
  startsWithStr m "File not found:" || startsWithStr m "File is empty (0 bytes):" ||
  startsWithStr m "File is not readable:" ||
  m = "Custom uploader not configured - skipping to next uploader"

/-! ## Native cancellation registry (`cancelUpload`, part_001 lines
3069-3115) -/

/-- The native module's mutable state relevant to cancellation: the
cancelled-id set, the active-request table (each entry recording whether
its `cleanup` callback throws when invoked, the only throwing step in the
handler's `try` block), and the latest progress record's upload id. -/
structure NativeState where
  cancelledUploads : List String
  activeRequests : List (String × Bool)
  latestProgressId : Option String
deriving DecidableEq

/-- Result object returned by `cancelUpload`. -/
structure CancelResult where
  success : Bool
  error : Option String
deriving DecidableEq

/-- JS `Set.prototype.add`. -/
def setAdd (xs : List String) (x : String) : List String :=
  if xs.contains x then xs else xs ++ [x]

/-- `cancelUpload(uploadId)`: always add the id to the cancelled set and
clear matching progress; when an active request exists, run its cleanup
(returning a failure result if that throws, leaving the entry in place)
and otherwise delete it and report success; with no active request the
call still reports success.  (The delayed 30-second removal from the
cancelled set is an asynchronous timer, not part of this operation.) -/
def cancelUpload (st : NativeState) (uploadId : String) : NativeState × CancelResult :=
  let cancelled := setAdd st.cancelledUploads uploadId
  let progress := if st.latestProgressId = some uploadId then none else st.latestProgressId
  match st.activeRequests.lookup uploadId with
  | some cleanupThrows =>
    if cleanupThrows then
      ({ cancelledUploads := cancelled, activeRequests := st.activeRequests,
         latestProgressId := progress },
       { success := false, error := some "cleanup failed" })
    else
      ({ cancelledUploads := cancelled,
         activeRequests := mapDelete st.activeRequests uploadId,
         latestProgressId := progress },
       { success := true, error := none })
  | none =>
    ({ cancelledUploads := cancelled, activeRequests := st.activeRequests,
       latestProgressId := progress },
     { success := true, error := none })

/-! ## Upload orchestrator (`uploadFileBuffer` and `pickAndUploadFile`,
part_001 lines 2148-2980) -/

/-- Result of one service attempt (the resolved value or the thrown
error's message). -/
inductive AttemptOutcome where
  | ok (url : String)
  | fail (msg : String)
deriving DecidableEq

/-- The orchestrator's cancellation test on a caught error message. -/
def isCancelMsg (msg : String) : Bool :=
  containsSub (toLowerStr msg) "upload cancelled by user"

/-- Fallback service order of both orchestrator entry points. -/
def FALLBACK_UPLOADERS : List String :=
  ["Catbox", "Litterbox", "0x0.st", "tmpfiles.org", "GoFile",
   "buzzheavier.com", "temp.sh", "filebin.net"]

/-- Uploaders that reject EXE files, and the substitute primary. -/
def EXE_BLOCKED_UPLOADERS : List String := ["Catbox", "Litterbox", "0x0.st"]

/-- `isExeFile`. -/
def isExeFile (fileName : String) : Bool :=
  endsWithStr (toLowerStr fileName) ".exe"

/-- `getEffectiveUploader`: EXE files are diverted from EXE-blocked
services to GoFile. -/
def getEffectiveUploader (fileName selectedUploader : String) : String :=
  if isExeFile fileName && EXE_BLOCKED_UPLOADERS.contains selectedUploader then "GoFile"
  else selectedUploader

/-- The candidate list built by `uploadFileBuffer`: effective primary
first, then the fallbacks minus the primary, minus `Custom`, minus
EXE-blocked services for EXE files; a lone `Custom` primary gets one
fallback appended.  (An empty `fileUploader` setting defaults to
`Catbox`.) -/
def buildUploadersToTry (fileName selectedUploader : String) : List String :=
  let selected := if selectedUploader = "" then "Catbox" else selectedUploader
  let primaryUploader := getEffectiveUploader fileName selected
  let isExe := isExeFile fileName
  let base := primaryUploader ::
    (FALLBACK_UPLOADERS.filter fun fallback =>
      fallback ≠ primaryUploader && fallback ≠ "Custom" &&
      !(isExe && EXE_BLOCKED_UPLOADERS.contains fallback))
  if primaryUploader = "Custom" && base.length = 1 then
    base ++ [if isExe then "GoFile" else "Catbox"]
  else base

/-- `tryUploader` of `uploadFileBuffer`: the service-specific request body
is the network oracle `raw`; the unconfigured-`Custom` guard throws before
any request, and a resolved URL failing `validateUploadUrl` is converted
into a thrown error. -/
def tryUploaderModel (raw : String → AttemptOutcome) (customConfigured : Bool)
    (uploader : String) : AttemptOutcome :=
  if uploader = "Custom" && !customConfigured then
    .fail "Custom uploader not configured - skipping to next uploader"
  else
    match raw uploader with
    | .ok url =>
      if validateUploadUrl url then .ok url
      else .fail ("Invalid URL received from " ++ uploader ++ ": " ++ takeStr 100 url)
    | .fail m => .fail m

/-- The inline per-service `switch` of `pickAndUploadFile`: like
`tryUploaderModel` but `Custom` additionally throws unless it is the
primary selection. -/
def pickTryModel (raw : String → AttemptOutcome) (customConfigured : Bool)
    (primaryUploader uploader : String) : AttemptOutcome :=
  if uploader = "Custom" && !customConfigured then
    .fail "Custom uploader not configured - skipping to next uploader"
  else if uploader = "Custom" && uploader ≠ primaryUploader then
    .fail "Custom uploader only works as primary selection"
  else
    match raw uploader with
    | .ok url =>
      if validateUploadUrl url then .ok url
      else .fail ("Invalid URL received from " ++ uploader ++ ": " ++ takeStr 100 url)
    | .fail m => .fail m

/-- `autoFormat === "Yes"` URL wrapping. -/
def formatUrl (autoFormat : Bool) (fileName url : String) : String :=
  if autoFormat then "[" ++ fileName ++ "](" ++ url ++ ")" else url

/-- The fields of the orchestrators' result objects that the claims
mention (`fileName`, `fileSize` and `uploadId` are carried unchanged by
the source and omitted here). -/
structure UploadResultModel where
  success : Bool
  url : Option String := none
  actualUploader : Option String := none
  attemptedUploaders : Option (List String) := none
  error : Option String := none
deriving DecidableEq

/-- The final "all failed" error message. -/
def finalErrorMsg (lastError : Option String) (attempted : List String) : String :=
  "All upload services failed. Last error: " ++ lastError.getD "Connection issue" ++
  ". Tried: " ++ String.intercalate ", " attempted

/-- A run of `uploadFileBuffer`: its result plus the uploaders for which a
background retry was spawned (`backgroundRetries` in the source, in spawn
order). -/
structure BufferRun where
  result : UploadResultModel
  backgroundRetries : List String
deriving DecidableEq

/-- The sequential attempt loop of `uploadFileBuffer`.  `usFull` is the
whole candidate list (used by the source's length-based last-uploader
test), `remaining` the uploaders not yet tried, `attempted` the failed
ones so far, `bgRs` the services with a spawned background retry, and
`lastErr` the last recorded error.  The asynchronous background retries
are oracles: `bgWin i` is the settled result of the
`raceToFirstSuccess` check performed when `i` uploaders have been
attempted, and `bgFinal` the result of the final 30-second grace race. -/
def uploadBufferLoop (tryU : String → AttemptOutcome)
    (bgWin : Nat → Option (String × String)) (bgFinal : Option (String × String))
    (autoFormat : Bool) (fileName : String) (usFull : List String) :
    List String → List String → List String → Option String → BufferRun
  | [], _attempted, bgRs, lastErr =>
    { result := { success := false, error := some (finalErrorMsg lastErr _attempted) },
      backgroundRetries := bgRs }
  | u :: rest, attempted, bgRs, _lastErr =>
    match (if !bgRs.isEmpty then bgWin attempted.length else none) with
    | some (url, up) =>
      { result := { success := true, url := some (formatUrl autoFormat fileName url),
                    actualUploader := some up,
                    attemptedUploaders := some (attempted ++ [up]) },
        backgroundRetries := bgRs }
    | none =>
      match tryU u with
      | .ok url =>
        { result := { success := true, url := some (formatUrl autoFormat fileName url),
                      actualUploader := some u,
                      attemptedUploaders := some (attempted ++ [u]) },
          backgroundRetries := bgRs }
      | .fail msg =>
        if isCancelMsg msg then
          { result := { success := false, error := some "Upload cancelled by user",
                        attemptedUploaders := some attempted },
            backgroundRetries := bgRs }
        else
          let attempted2 := attempted ++ [u]
          let bgRs2 :=
            if u ≠ "Custom" && !(bgRs.contains u) then bgRs ++ [u] else bgRs
          let lastErr2 := some ("[" ++ u ++ "] " ++ msg)
          if attempted2.length ≥ usFull.length then
            match bgFinal with
            | some (url, up) =>
              { result := { success := true,
                            url := some (formatUrl autoFormat fileName url),
                            actualUploader := some up,
                            attemptedUploaders := some (attempted2 ++ [up]) },
                backgroundRetries := bgRs2 }
            | none =>
              { result := { success := false,
                            error := some (finalErrorMsg lastErr2 attempted2) },
                backgroundRetries := bgRs2 }
          else
            uploadBufferLoop tryU bgWin bgFinal autoFormat fileName usFull
              rest attempted2 bgRs2 lastErr2

/-- `uploadFileBuffer` from the top of its attempt loop, over an explicit
candidate list. -/
def uploadFileBufferModel (raw : String → AttemptOutcome) (customConfigured : Bool)
    (bgWin : Nat → Option (String × String)) (bgFinal : Option (String × String))
    (autoFormat : Bool) (fileName : String) (uploadersToTry : List String) : BufferRun :=
  uploadBufferLoop (tryUploaderModel raw customConfigured) bgWin bgFinal
    autoFormat fileName uploadersToTry uploadersToTry [] [] none

/-- A run of `pickAndUploadFile`'s attempt loop: its result, plus the
(always empty) list of background retries it spawned — the source's loop
(part_001 lines 2702-2970) contains no background-retry spawning at all. -/
structure PickRun where
  result : UploadResultModel
  backgroundRetries : List String
deriving DecidableEq

/-- The sequential attempt loop of `pickAndUploadFile`.  There are no
background retries; the loop breaks out (to the final failure return)
when the failed uploader equals the last element of the candidate list,
which is the source's `uploader === uploadersToTry[uploadersToTry.length
- 1]` test. -/
def pickLoop (tryP : String → AttemptOutcome) (autoFormat : Bool)
    (fileName : String) (usFull : List String) :
    List String → List String → Option String → PickRun
  | [], attempted, lastErr =>
    { result := { success := false, error := some (finalErrorMsg lastErr attempted) },
      backgroundRetries := [] }
  | u :: rest, attempted, _lastErr =>
    match tryP u with
    | .ok url =>
      { result := { success := true, url := some (formatUrl autoFormat fileName url),
                    actualUploader := some u,
                    attemptedUploaders := some (attempted ++ [u]) },
        backgroundRetries := [] }
    | .fail msg =>
      if isCancelMsg msg then
        { result := { success := false, error := some "Upload cancelled by user",
                      attemptedUploaders := some attempted },
          backgroundRetries := [] }
      else
        let attempted2 := attempted ++ [u]
        let lastErr2 := some ("[" ++ u ++ "] " ++ msg)
        if usFull.getLast? = some u then
          { result := { success := false,
                        error := some (finalErrorMsg lastErr2 attempted2) },
            backgroundRetries := [] }
        else
          pickLoop tryP autoFormat fileName usFull rest attempted2 lastErr2

/-- `pickAndUploadFile` from the top of its attempt loop, over an explicit
candidate list. -/
def pickAndUploadFileModel (raw : String → AttemptOutcome) (customConfigured : Bool)
    (primaryUploader : String) (autoFormat : Bool) (fileName : String)
    (uploadersToTry : List String) : PickRun :=
  pickLoop (pickTryModel raw customConfigured primaryUploader) autoFormat fileName
    uploadersToTry uploadersToTry [] none

/-- The accumulated effect of `uploadFileBuffer`'s background-retry spawn
guard over a sequence of failed uploaders: each failed service is appended
once, unless it is `Custom` or already present. -/
def spawnFold (bgRs failed : List String) : List String :=
  failed.foldl (fun acc u => if u ≠ "Custom" && !(acc.contains u) then acc ++ [u] else acc) bgRs

/-- A concrete network oracle for witnesses: `Litterbox` resolves with a
hosted URL, every other service fails with a connection reset. -/
def demoRaw : String → AttemptOutcome := fun u =>
  if u = "Litterbox" then .ok "https://litter.catbox.moe/abc.bin" else .fail "read ECONNRESET"

/-- A concrete network oracle for witnesses: `Catbox` fails with the
transport's empty-file precondition error, every other service resolves. -/
def demoPreRaw : String → AttemptOutcome := fun u =>
  if u = "Catbox" then .fail "File is empty (0 bytes): /tmp/f.bin"
  else .ok "https://litter.catbox.moe/abc.bin"

/-- A concrete in-flight progress sample for witnesses. -/
def demoProgress : UploadProgress :=
  { uploadId := "u1", fileName := "a.bin", loaded := 0, total := 1, percent := 0,
    speed := 0, eta := 0, transferred := 0 }

/-- A concrete registry state for witnesses: one active upload in a
one-file batch. -/
def demoProgressState : ProgressState :=
  { activeUploads := [("u1", demoProgress)], currentUploadId := some "u1",
    isComplete := false, completionLogReported := false, isDispatched := false,
    forceHide := false, totalFiles := 1, completedFiles := 0 }

/-! ## Response URL extractor (`navigateJsonPath`, `resolveUrl`,
`extractUrlFromResponse`, part_001 lines 235-379).  `JSON.parse` is a
platform primitive and is passed in as an oracle `jparse` returning
`none` where the parser would throw. -/

/-- JSON values (numbers restricted to integers; no claim depends on
float payloads). -/
inductive Json where
  | null
  | bool (b : Bool)
  | num (n : Int)
  | str (s : String)
  | arr (elems : List Json)
  | obj (fields : List (String × Json))

/-- Is the string a canonical JS array-index key ("0", "17", ...; no
leading zeros)? -/
def isCanonicalIndex (key : String) : Bool :=
  key ≠ "" && key.toList.all Char.isDigit &&
  (key = "0" || !(startsWithStr key "0"))

/-- JS bare property access `value[key]` on a parsed JSON value, `none`
modelling `undefined`.  Arrays and strings answer canonical numeric keys;
exotic properties (`length`, prototype members) are not modelled. -/
def jsGetField (j : Json) (key : String) : Option Json :=
  match j with
  | .obj fields => fields.lookup key
  | .arr elems =>
    if isCanonicalIndex key then elems.get? (digitsToNat key.toList) else none
  | .str s =>
    if isCanonicalIndex key then
      (s.toList.get? (digitsToNat key.toList)).map fun c => Json.str (String.mk [c])
    else none
  | _ => none

/-- The source's array-index part regex: a part of the form `name[3]`
(`name` nonempty and bracket-free, index a digit string). -/
def parseArrayPart (part : String) : Option (String × Nat) :=
  match splitOnceList ['['] part.toList with
  | some (key, rest) =>
    if key.isEmpty then none
    else
      match rest.reverse with
      | ']' :: revDigits =>
        let digits := revDigits.reverse
        if !digits.isEmpty && digits.all Char.isDigit then
          some (String.mk key, digitsToNat digits)
        else none
      | _ => none
  | none => none

/-- Is the value a JS array? -/
def isArrJson : Json → Bool
  | .arr _ => true
  | _ => false

/-- `current[parseInt(part, 10)]` on an array (the parsed-integer access
accepts leading zeros, unlike bare string access). -/
def arrGetParsed (j : Json) (idx : Nat) : Option Json :=
  match j with
  | .arr elems => elems.get? idx
  | _ => none

/-- One iteration of `navigateJsonPath`'s loop: the null/undefined check
at the top, then the array-index-notation branch, the
numeric-part-on-array branch, or bare property access. -/
def navStep (current : Option Json) (part : String) : Option Json :=
  match current with
  | none => none
  | some Json.null => none
  | some cur =>
    match parseArrayPart part with
    | some (key, idx) =>
      match jsGetField cur key with
      | none => none
      | some Json.null => none
      | some cur2 => jsGetField cur2 (toString idx)
    | none =>
      if part ≠ "" && part.toList.all Char.isDigit && isArrJson cur then
        arrGetParsed cur (digitsToNat part.toList)
      else jsGetField cur part

/-- `navigateJsonPath(obj, pathParts)`. -/
def navigateJsonPath (root : Json) (pathParts : List String) : Option Json :=
  pathParts.foldl navStep (some root)

/-- The `(customUploaderURL || "").split(".").filter(s => s)` path
preparation done by the orchestrators. -/
def urlPathSplit (setting : String) : List String :=
  (splitAllOn '.' setting.toList).filterMap fun g =>
    if g.isEmpty then none else some (String.mk g)

/-- `resolveUrl(url, baseUrl)`: absolute URLs pass through; a
slash-rooted URL is attached to the base's scheme and host; other
relative URLs are resolved against the base (modelled as replacing the
last segment of the base's path); on any parse failure or missing base
the URL is returned as-is.  A missing or empty (falsy) base is `none`. -/
def resolveUrl (url : String) (baseUrl : Option String) : String :=
  if url = "" then ""
  else if startsWithStr url "http://" || startsWithStr url "https://" then url
  else
    match baseUrl with
    | some base =>
      match parseUrlModel base with
      | some (protocol, host) =>
        if startsWithStr url "/" then protocol ++ "//" ++ host ++ url
        else
          match splitOnceList "://".toList base.toList with
          | some (scheme, rest) =>
            let cleaned := rest.takeWhile fun c => c ≠ '?' && c ≠ '#'
            let upToSlash :=
              if cleaned.contains '/' then
                (cleaned.reverse.dropWhile fun c => c ≠ '/').reverse
              else cleaned ++ ['/']
            String.mk (scheme ++ "://".toList ++ upToSlash) ++ url
          | none => url
      | none => url
    | none => url

/-- The fixed list of common URL field paths probed by strategy 1. -/
def commonUrlFields : List (List String) :=
  [["url"], ["link"], ["href"], ["file"], ["download"],
   ["data", "url"], ["data", "link"], ["data", "file"],
   ["result", "url"], ["result", "link"],
   ["response", "url"], ["response", "link"],
   ["files", "0", "url"], ["files", "0", "link"],
   ["image", "url"], ["image", "link"],
   ["upload", "url"], ["upload", "link"]]

/-- The JSON part of strategy 1: declared path navigation, then
common-field probing, then a bare JSON string; `none` means the strategy
found no URL. -/
def jsonUrlExtract (parsed : Json) (urlPath : List String)
    (baseUrl : Option String) : Option String :=
  let fromPath :=
    if !urlPath.isEmpty then
      match navigateJsonPath parsed urlPath with
      | some (.str s) => if s.length > 0 then some (resolveUrl s baseUrl) else none
      | _ => none
    else none
  match fromPath with
  | some u => some u
  | none =>
    let fromCommon := commonUrlFields.findSome? fun path =>
      match navigateJsonPath parsed path with
      | some (.str v) =>
        if startsWithStr v "http" || startsWithStr v "/" then
          some (resolveUrl v baseUrl)
        else none
      | _ => none
    match fromCommon with
    | some u => some u
    | none =>
      match parsed with
      | .str s =>
        if startsWithStr s "http" || startsWithStr s "/" then
          some (resolveUrl s baseUrl)
        else none
      | _ => none

/-- A character the URL regex body class `[^\s<>"')\]]` accepts (the
quote characters are written by code point). -/
def urlBodyChar (c : Char) : Bool :=
  !(isJsSpace c || c = '<' || c = '>' || c.toNat = 34 || c.toNat = 39 ||
    c = ')' || c = ']')

/-- Greedy match of the case-insensitive regex `https?://[^\s<>"')\]]+`
anchored at the head of the list; returns the match and the remainder. -/
def matchUrlAt (cs : List Char) : Option (List Char × List Char) :=
  match cs with
  | c1 :: c2 :: c3 :: c4 :: rest0 =>
    if c1.toLower = 'h' && c2.toLower = 't' && c3.toLower = 't' && c4.toLower = 'p' then
      let sPick : List Char × List Char :=
        match rest0 with
        | c5 :: r => if c5.toLower = 's' then ([c5], r) else ([], rest0)
        | [] => ([], rest0)
      match sPick.2 with
      | c6 :: c7 :: c8 :: rest2 =>
        if c6 = ':' && c7 = '/' && c8 = '/' then
          let body := rest2.takeWhile urlBodyChar
          if body.isEmpty then none
          else
            some (c1 :: c2 :: c3 :: c4 :: (sPick.1 ++ ':' :: '/' :: '/' :: body),
                  rest2.drop body.length)
        else none
      | _ => none
    else none
  | _ => none

/-- Left-to-right global scan of the URL regex (the fuel argument only
bounds the recursion; every step consumes at least one character). -/
def scanUrlsAux : Nat → List Char → List (List Char)
  | 0, _ => []
  | _, [] => []
  | fuel + 1, c :: cs =>
    match matchUrlAt (c :: cs) with
    | some (m, rest) => m :: scanUrlsAux fuel rest
    | none => scanUrlsAux fuel cs

/-- All matches of `trimmed.match(/https?:\/\/[^\s<>"')\]]+/gi)`. -/
def scanUrls (cs : List Char) : List (List Char) :=
  scanUrlsAux cs.length cs

/-- `matches.reduce((a, b) => a.length >= b.length ? a : b)`: the first
longest match. -/
def longestMatch : List (List Char) → Option (List Char)
  | [] => none
  | m :: ms => some (ms.foldl (fun a b => if a.length ≥ b.length then a else b) m)

/-- Strategies 2-4 and the last resort of `extractUrlFromResponse`: the
first line of a direct URL response, the longest regex match, relative-URL
resolution, and finally the trimmed raw response.  Every branch produces a
value; these strategies cannot throw. -/
def textStrategies (trimmed : String) (baseUrl : Option String) : String :=
  let direct : Option String :=
    if startsWithStr trimmed "http://" || startsWithStr trimmed "https://" then
      let firstLine := trimStr (String.mk (trimmed.toList.takeWhile fun c => c ≠ '\r' && c ≠ '\n'))
      if startsWithStr firstLine "http" then some firstLine else none
    else none
  match direct with
  | some u => u
  | none =>
    match longestMatch (scanUrls trimmed.toList) with
    | some m => String.mk m
    | none =>
      if startsWithStr trimmed "/" && baseUrl.isSome then resolveUrl trimmed baseUrl
      else trimmed

/-- The JSON strategy (strategy 1) of `extractUrlFromResponse`:
`some (.ok url)` when a URL was extracted, `some (.error e)` when the
declared JSON type makes the parse failure or the could-not-find-URL
error propagate as a throw, and `none` when control falls through to the
text strategies. -/
def jsonStrategy (jparse : String → Option Json) (trimmed responseType : String)
    (urlPath : List String) (baseUrl : Option String) :
    Option (Except String String) :=
  if responseType = "JSON" || (responseType = "Text" && startsWithStr trimmed "\x7b") ||
      startsWithStr trimmed "[" then
    match jparse trimmed with
    | none =>
      if responseType = "JSON" then some (.error "Unexpected token in JSON") else none
    | some parsed =>
      match jsonUrlExtract parsed urlPath baseUrl with
      | some url => some (.ok url)
      | none =>
        if responseType = "JSON" then
          some (.error "Could not find URL in JSON response. Try specifying a URL path.")
        else none
  else none

/-- `extractUrlFromResponse(responseText, responseType, urlPath,
baseUrl)`.  `Except.error` models a thrown error: the source rethrows
JSON parse failures and the could-not-find-URL error when the declared
response type is JSON, and otherwise falls through to the text
strategies, ending with the trimmed raw response as a last resort. -/
def extractUrlFromResponse (jparse : String → Option Json)
    (responseText responseType : String) (urlPath : List String)
    (baseUrl : Option String) : Except String String :=
  let trimmed := trimStr responseText
  match jsonStrategy jparse trimmed responseType urlPath baseUrl with
  | some r => r
  | none => .ok (textStrategies trimmed baseUrl)

end BigFileUpload

namespace BigFileUpload

/-! ## Helper lemmas -/

theorem blocked_of_mem_four (x : String)
    (hx : x ∈ (["authorization", "cookie", "host", "x-forwarded-for"] : List String)) :
    BLOCKED_HEADERS.contains x = true := by
  fin_cases hx <;> decide

theorem respAccum_len_le (chunks : List String) (st : String × Bool)
    (h : st.1.length ≤ MAX_RESPONSE_SIZE) :
    (chunks.foldl responseDataStep st).1.length ≤ MAX_RESPONSE_SIZE := by
  induction chunks generalizing st with
  | nil => simpa using h
  | cons c rest ih =>
    simp only [List.foldl_cons]
    apply ih
    unfold responseDataStep
    split
    · exact h
    · next hle => exact Nat.le_of_not_lt (by simpa [String.length_append] using hle)

theorem respAccum_untruncated_total (chunks : List String) (st : String × Bool)
    (h : (chunks.foldl responseDataStep st).2 = false) :
    (chunks.foldl responseDataStep st).1.length = st.1.length + (chunks.map String.length).sum ∧
      st.2 = false := by
  induction chunks generalizing st with
  | nil => simpa using h
  | cons c rest ih =>
    simp only [List.foldl_cons] at h ⊢
    by_cases hover : st.1.length + c.length > MAX_RESPONSE_SIZE
    · have hstep : responseDataStep st c = (st.1, true) := by
        unfold responseDataStep; rw [if_pos hover]
      rw [hstep] at h
      obtain ⟨-, hflag⟩ := ih _ h
      simp at hflag
    · have hstep : responseDataStep st c = (st.1 ++ c, st.2) := by
        unfold responseDataStep; rw [if_neg hover]
      rw [hstep] at h ⊢
      obtain ⟨hlen, hflag⟩ := ih _ h
      refine ⟨?_, hflag⟩
      rw [hlen, String.length_append]
      simp only [List.map_cons, List.sum_cons]
      omega

theorem jsonStrategy_text_no_error (jparse : String → Option Json) (trimmed : String)
    (urlPath : List String) (baseUrl : Option String) (e : String)
    (h : jsonStrategy jparse trimmed "Text" urlPath baseUrl = some (.error e)) : False := by
  unfold jsonStrategy at h
  split at h
  · split at h
    · rw [if_neg (by decide : ¬("Text" = "JSON"))] at h
      exact Option.noConfusion h
    · split at h
      · exact Except.noConfusion (Option.some.injEq .. ▸ h)
      · rw [if_neg (by decide : ¬("Text" = "JSON"))] at h
        exact Option.noConfusion h
  · exact Option.noConfusion h

theorem uploadBufferLoop_first_success
    (tryU : String → AttemptOutcome) (bgWin : Nat → Option (String × String))
    (bgFinal : Option (String × String)) (auto : Bool) (fn : String)
    (usFull : List String) (url : String)
    (hbg : ∀ i, bgWin i = none) :
    ∀ (pre : List String) (s : String) (rest : List String)
      (attempted bgRs : List String) (lastErr : Option String),
      (∀ u ∈ pre, ∃ m, tryU u = .fail m ∧ isCancelMsg m = false) →
      tryU s = .ok url →
      attempted.length + pre.length < usFull.length →
      (uploadBufferLoop tryU bgWin bgFinal auto fn usFull (pre ++ s :: rest) attempted bgRs lastErr).result =
        { success := true, url := some (formatUrl auto fn url), actualUploader := some s,
          attemptedUploaders := some ((attempted ++ pre) ++ [s]) } ∧
      (uploadBufferLoop tryU bgWin bgFinal auto fn usFull (pre ++ s :: rest) attempted bgRs lastErr).backgroundRetries =
        spawnFold bgRs pre := by
  intro pre
  induction pre with
  | nil =>
    intro s rest attempted bgRs lastErr hpre hs _hlen
    have hpick : (if !bgRs.isEmpty then bgWin attempted.length else none) =
        (none : Option (String × String)) := by
      cases bgRs.isEmpty <;> simp [hbg]
    simp only [List.nil_append, uploadBufferLoop, hpick, hs, spawnFold, List.foldl_nil]
    simp
  | cons u pre' ih =>
    intro s rest attempted bgRs lastErr hpre hs hlen
    obtain ⟨m, hm, hmc⟩ := hpre u (List.mem_cons_self u pre')
    have hpick : (if !bgRs.isEmpty then bgWin attempted.length else none) =
        (none : Option (String × String)) := by
      cases bgRs.isEmpty <;> simp [hbg]
    have hnl : ¬((attempted ++ [u]).length ≥ usFull.length) := by
      simp only [List.length_append, List.length_cons, List.length_nil] at hlen ⊢
      omega
    have hstep := ih s rest (attempted ++ [u])
      (if u ≠ "Custom" && !(bgRs.contains u) then bgRs ++ [u] else bgRs)
      (some ("[" ++ u ++ "] " ++ m))
      (fun v hv => hpre v (List.mem_cons_of_mem _ hv)) hs
      (by simp only [List.length_append, List.length_cons, List.length_nil] at hlen ⊢; omega)
    simp only [List.cons_append, uploadBufferLoop, hpick, hm, hmc, Bool.false_eq_true,
      if_false, if_neg hnl, List.append_eq]
    refine ⟨hstep.1.trans ?_, hstep.2.trans ?_⟩
    · simp [List.append_assoc]
    · simp [spawnFold]

theorem uploadBufferLoop_all_fail
    (tryU : String → AttemptOutcome) (bgWin : Nat → Option (String × String))
    (bgFinal : Option (String × String)) (auto : Bool) (fn : String)
    (usFull : List String) (hbg : ∀ i, bgWin i = none) :
    ∀ (remaining attempted bgRs : List String) (lastErr : Option String),
      (∀ u ∈ remaining, ∃ m, tryU u = .fail m ∧ isCancelMsg m = false) →
      attempted.length + remaining.length = usFull.length →
      (uploadBufferLoop tryU bgWin bgFinal auto fn usFull remaining attempted bgRs lastErr).backgroundRetries =
        spawnFold bgRs remaining := by
  intro remaining
  induction remaining with
  | nil =>
    intro attempted bgRs lastErr _hfail _hlen
    simp [uploadBufferLoop, spawnFold]
  | cons u rest ih =>
    intro attempted bgRs lastErr hfail hlen
    obtain ⟨m, hm, hmc⟩ := hfail u (List.mem_cons_self u rest)
    have hpick : (if !bgRs.isEmpty then bgWin attempted.length else none) =
        (none : Option (String × String)) := by
      cases bgRs.isEmpty <;> simp [hbg]
    cases rest with
    | nil =>
      have hge : (attempted ++ [u]).length ≥ usFull.length := by
        simp only [List.length_append, List.length_cons, List.length_nil] at hlen ⊢
        omega
      simp only [uploadBufferLoop, hpick, hm, hmc, Bool.false_eq_true, if_false, if_pos hge]
      cases bgFinal <;> simp [spawnFold]
    | cons v rest2 =>
      have hnl : ¬((attempted ++ [u]).length ≥ usFull.length) := by
        simp only [List.length_append, List.length_cons, List.length_nil] at hlen ⊢
        omega
      have hstep := ih (attempted ++ [u])
        (if u ≠ "Custom" && !(bgRs.contains u) then bgRs ++ [u] else bgRs)
        (some ("[" ++ u ++ "] " ++ m))
        (fun w hw => hfail w (List.mem_cons_of_mem _ hw))
        (by simp only [List.length_append, List.length_cons, List.length_nil] at hlen ⊢; omega)
      simp only [uploadBufferLoop, hpick, hm, hmc, Bool.false_eq_true, if_false,
        if_neg hnl, List.append_eq]
      exact hstep.trans (by simp [spawnFold])

theorem pickLoop_bg_empty (tryP : String → AttemptOutcome) (auto : Bool)
    (fn : String) (usFull : List String) :
    ∀ (remaining attempted : List String) (lastErr : Option String),
      (pickLoop tryP auto fn usFull remaining attempted lastErr).backgroundRetries = [] := by
  intro remaining
  induction remaining with
  | nil => intro attempted lastErr; simp [pickLoop]
  | cons u rest ih =>
    intro attempted lastErr
    cases htry : tryP u with
    | ok url => simp [pickLoop, htry]
    | fail m =>
      cases hc : isCancelMsg m with
      | true => simp [pickLoop, htry, hc]
      | false =>
        by_cases hlast : usFull.getLast? = some u
        · simp [pickLoop, htry, hc, hlast]
        · simp only [pickLoop, htry, hc, Bool.false_eq_true, if_false, if_neg hlast,
            List.append_eq]
          exact ih _ _

theorem pickLoop_first_success
    (tryP : String → AttemptOutcome) (auto : Bool) (fn : String)
    (usFull : List String) (url : String) :
    ∀ (pre : List String) (s : String) (rest : List String)
      (attempted : List String) (lastErr : Option String),
      (∀ u ∈ pre, ∃ m, tryP u = .fail m ∧ isCancelMsg m = false) →
      tryP s = .ok url →
      (∀ u ∈ pre, usFull.getLast? ≠ some u) →
      (pickLoop tryP auto fn usFull (pre ++ s :: rest) attempted lastErr).result =
        { success := true, url := some (formatUrl auto fn url), actualUploader := some s,
          attemptedUploaders := some ((attempted ++ pre) ++ [s]) } := by
  intro pre
  induction pre with
  | nil =>
    intro s rest attempted lastErr _hpre hs _hlast
    simp [pickLoop, hs]
  | cons u pre' ih =>
    intro s rest attempted lastErr hpre hs hlast
    obtain ⟨m, hm, hmc⟩ := hpre u (List.mem_cons_self u pre')
    have hnl : usFull.getLast? ≠ some u := hlast u (List.mem_cons_self u pre')
    have hstep := ih s rest (attempted ++ [u]) (some ("[" ++ u ++ "] " ++ m))
      (fun v hv => hpre v (List.mem_cons_of_mem _ hv)) hs
      (fun v hv => hlast v (List.mem_cons_of_mem _ hv))
    simp only [List.cons_append, pickLoop, hm, hmc, Bool.false_eq_true, if_false,
      if_neg hnl, List.append_eq]
    exact hstep.trans (by simp [List.append_assoc])

theorem spawnFold_mono (failed : List String) :
    ∀ (bgRs : List String) (v : String), v ∈ bgRs → v ∈ spawnFold bgRs failed := by
  induction failed with
  | nil => intro bgRs v hv; simpa [spawnFold] using hv
  | cons u rest ih =>
    intro bgRs v hv
    unfold spawnFold at ih ⊢
    simp only [List.foldl_cons]
    split
    · exact ih _ v (List.mem_append_left _ hv)
    · exact ih _ v hv

theorem spawnFold_nodup (failed : List String) :
    ∀ bgRs : List String, bgRs.Nodup → (spawnFold bgRs failed).Nodup := by
  induction failed with
  | nil => intro bgRs h; simpa [spawnFold] using h
  | cons u rest ih =>
    intro bgRs h
    unfold spawnFold at ih ⊢
    simp only [List.foldl_cons]
    split
    · next hc =>
      refine ih _ ?_
      have hnotmem : u ∉ bgRs := by
        simp only [Bool.and_eq_true, Bool.not_eq_true', decide_eq_true_eq] at hc
        intro hmem
        have hcont : bgRs.contains u = true := List.elem_eq_true_of_mem hmem
        rw [hcont] at hc
        exact absurd hc.2 (by simp)
      simp [List.nodup_append, h, hnotmem]
    · exact ih _ h

theorem spawnFold_custom_not_mem (failed : List String) :
    ∀ bgRs : List String, "Custom" ∉ bgRs → "Custom" ∉ spawnFold bgRs failed := by
  induction failed with
  | nil => intro bgRs h; simpa [spawnFold] using h
  | cons u rest ih =>
    intro bgRs h
    unfold spawnFold at ih ⊢
    simp only [List.foldl_cons]
    split
    · next hc =>
      refine ih _ ?_
      simp only [Bool.and_eq_true, Bool.not_eq_true', decide_eq_true_eq] at hc
      simp only [List.mem_append, List.mem_singleton]
      rintro (hmem | hmem)
      · exact h hmem
      · exact hc.1 hmem.symm
    · exact ih _ h

theorem spawnFold_mem (failed : List String) :
    ∀ (bgRs : List String) (u : String), u ∈ failed → u ≠ "Custom" →
      u ∈ spawnFold bgRs failed := by
  induction failed with
  | nil => intro bgRs u hu; exact absurd hu (List.not_mem_nil u)
  | cons v rest ih =>
    intro bgRs u hu hne
    rcases List.mem_cons.mp hu with rfl | hu2
    · unfold spawnFold
      simp only [List.foldl_cons]
      split
      · next hc =>
        exact spawnFold_mono rest _ u (List.mem_append_right _ (List.mem_singleton_self u))
      · next hc =>
        simp only [Bool.and_eq_true, Bool.not_eq_true', decide_eq_true_eq, not_and] at hc
        have hmem : u ∈ bgRs := by
          cases hcb : bgRs.contains u with
          | true => exact List.mem_of_elem_eq_true hcb
          | false => exact absurd hcb (hc hne)
        exact spawnFold_mono rest bgRs u hmem
    · unfold spawnFold
      simp only [List.foldl_cons]
      split
      · exact ih _ u hu2 hne
      · exact ih _ u hu2 hne

end BigFileUpload

namespace BigFileUpload

/-! ## Claim theorems -/

/-- Claim C1 (amended): every progress-registry operation except
`markDispatched` preserves the implication "isDispatched implies
isComplete", and `completeAndDispatch` applied to the last remaining
active upload of a batch sets `isComplete` and `isDispatched` in the same
single synchronous update, with no intermediate state; `markDispatched`
itself sets `isDispatched` unconditionally and is the one operation that
can break the implication. -/
theorem registry_flag_invariant :
    (∀ id, preservesDispatchImpliesComplete (completeUpload id)) ∧
    (∀ id, preservesDispatchImpliesComplete (completeAndDispatch id)) ∧
    preservesDispatchImpliesComplete clearGlobalState ∧
    preservesDispatchImpliesComplete clearAndForceHide ∧
    (∀ n, preservesDispatchImpliesComplete (startUploadBatch n)) ∧
    (∀ id, preservesDispatchImpliesComplete (switchToUpload id)) ∧
    (∀ b, preservesDispatchImpliesComplete (setForceHide b)) ∧
    (∀ p, preservesDispatchImpliesComplete (pollUpdate p)) ∧
    preservesDispatchImpliesComplete pollNoProgress ∧
    (∀ b id, preservesDispatchImpliesComplete (cancelUploadTracking b id)) ∧
    (∀ (s : ProgressState) (id : String), mapHas s.activeUploads id = true →
      (mapDelete s.activeUploads id).isEmpty = true →
      (completeAndDispatch id s).isComplete = true ∧
      (completeAndDispatch id s).isDispatched = true) := by
  refine ⟨?_, ?_, ?_, ?_, ?_, ?_, ?_, ?_, ?_, ?_, ?_⟩
  · intro id s h hd
    unfold completeUpload at hd ⊢
    split at hd
    · next hc => rw [if_pos hc]; exact h hd
    · next hc =>
      rw [if_neg hc]
      by_cases h2 : (mapDelete s.activeUploads id).isEmpty = true
      · rw [if_pos h2]
      · rw [if_neg h2] at hd ⊢; exact h hd
  · intro id s h hd
    unfold completeAndDispatch at hd ⊢
    split at hd
    · next hc => rw [if_pos hc]; exact h hd
    · next hc =>
      rw [if_neg hc]
      by_cases h2 : (mapDelete s.activeUploads id).isEmpty = true
      · rw [if_pos h2]
      · rw [if_neg h2] at hd ⊢; exact h hd
  · intro s h hd
    simp [clearGlobalState, initialProgressState] at hd
  · intro s h hd
    simp [clearAndForceHide, clearGlobalState, setForceHide, initialProgressState] at hd
  · intro n s h hd
    unfold startUploadBatch at hd ⊢
    by_cases hc : s.isComplete = true
    · rw [if_pos hc] at hd ⊢
      by_cases h2 : (!(clearGlobalState s).activeUploads.isEmpty && !(clearGlobalState s).isComplete) = true
      · rw [if_pos h2] at hd; exact absurd hd (by simp [clearGlobalState, initialProgressState])
      · rw [if_neg h2] at hd; exact absurd hd (by simp)
    · rw [if_neg hc] at hd ⊢
      by_cases h2 : (!s.activeUploads.isEmpty && !s.isComplete) = true
      · rw [if_pos h2] at hd ⊢; exact h hd
      · rw [if_neg h2] at hd; exact absurd hd (by simp)
  · intro id s h hd
    unfold switchToUpload at hd ⊢
    by_cases hc : mapHas s.activeUploads id = true
    · rw [if_pos hc] at hd ⊢; exact h hd
    · rw [if_neg hc] at hd ⊢; exact h hd
  · intro b s h hd
    exact h hd
  · intro p s h hd
    exact h hd
  · intro s h hd
    unfold pollNoProgress at hd ⊢
    by_cases hc : (!s.isComplete && s.activeUploads.isEmpty) = true
    · rw [if_pos hc] at hd ⊢; exact h hd
    · rw [if_neg hc] at hd ⊢; exact h hd
  · intro b id s h hd
    unfold cancelUploadTracking at hd ⊢
    by_cases hb : (!b) = true
    · rw [if_pos hb] at hd ⊢; exact h hd
    · rw [if_neg hb] at hd ⊢
      by_cases hcur : s.currentUploadId = some id
      · rw [if_pos hcur] at hd ⊢
        cases hk : firstKeyOrNull (mapDelete s.activeUploads id) with
        | none => simp only [hk] at hd; exact absurd hd (by simp [clearGlobalState, initialProgressState])
        | some k => simp only [hk] at hd ⊢; exact h hd
      · rw [if_neg hcur] at hd ⊢; exact h hd
  · intro s id hhas hempty
    unfold completeAndDispatch
    rw [if_neg (by simp [hhas]), if_pos hempty]
    exact ⟨rfl, rfl⟩

theorem registry_flag_invariant_w :
    (completeAndDispatch "u1" demoProgressState).isComplete = true ∧
    (completeAndDispatch "u1" demoProgressState).isDispatched = true :=
  registry_flag_invariant.2.2.2.2.2.2.2.2.2.2 demoProgressState "u1" (by decide) (by decide)

/-- Claim C1 counterexample: `markDispatched` applied to the initial
registry state (which satisfies the implication) produces a state with
`isDispatched` true and `isComplete` false, so not every registry
operation preserves the implication. -/
theorem markDispatched_breaks_implication :
    (initialProgressState.isDispatched = true → initialProgressState.isComplete = true) ∧
    (markDispatched initialProgressState).isDispatched = true ∧
    (markDispatched initialProgressState).isComplete = false := by
  refine ⟨fun h => absurd h (by decide), rfl, rfl⟩

/-- Claim C2: in both orchestrator entry points, when the first `k-1`
services of the candidate list fail sequentially (not by cancellation),
no background retry wins, and the `k`-th service's attempt succeeds, the
result has `success` true and its `attemptedUploaders` list is the failed
prefix plus the succeeding service: it has length `k` and its last
element is the succeeding service's name. -/
theorem orchestrator_first_success
    (raw : String → AttemptOutcome) (customConfigured : Bool)
    (bgWin : Nat → Option (String × String)) (bgFinal : Option (String × String))
    (auto : Bool) (fn : String) (primaryUploader : String)
    (pre : List String) (s : String) (rest : List String) (url : String)
    (hbg : ∀ i, bgWin i = none)
    (hpreB : ∀ u ∈ pre, ∃ m, tryUploaderModel raw customConfigured u = .fail m ∧
      isCancelMsg m = false)
    (hsB : tryUploaderModel raw customConfigured s = .ok url)
    (hpreP : ∀ u ∈ pre, ∃ m, pickTryModel raw customConfigured primaryUploader u = .fail m ∧
      isCancelMsg m = false)
    (hsP : pickTryModel raw customConfigured primaryUploader s = .ok url)
    (hnd : (pre ++ s :: rest).Nodup) :
    ((uploadFileBufferModel raw customConfigured bgWin bgFinal auto fn
        (pre ++ s :: rest)).result.success = true ∧
      (uploadFileBufferModel raw customConfigured bgWin bgFinal auto fn
        (pre ++ s :: rest)).result.attemptedUploaders = some (pre ++ [s]) ∧
      (pre ++ [s]).length = pre.length + 1 ∧ (pre ++ [s]).getLast? = some s) ∧
    ((pickAndUploadFileModel raw customConfigured primaryUploader auto fn
        (pre ++ s :: rest)).result.success = true ∧
      (pickAndUploadFileModel raw customConfigured primaryUploader auto fn
        (pre ++ s :: rest)).result.attemptedUploaders = some (pre ++ [s])) := by
  have hlenB : ([] : List String).length + pre.length < (pre ++ s :: rest).length := by
    simp
  have hB := uploadBufferLoop_first_success (tryUploaderModel raw customConfigured)
    bgWin bgFinal auto fn (pre ++ s :: rest) url hbg pre s rest [] [] none hpreB hsB hlenB
  have hlast : ∀ u ∈ pre, (pre ++ s :: rest).getLast? ≠ some u := by
    intro u hu heq
    cases h2 : (s :: rest).getLast? with
    | none => exact absurd (List.getLast?_eq_none_iff.mp h2) (by simp)
    | some x =>
      have h3 : (pre ++ s :: rest).getLast? = some x := by
        rw [List.getLast?_append, h2]; rfl
      have hxu : x = u := by rw [h3] at heq; exact Option.some.inj heq
      have hmemx : x ∈ s :: rest := List.mem_of_mem_getLast? (Option.mem_def.mpr h2)
      exact (List.disjoint_of_nodup_append hnd) hu (hxu ▸ hmemx)
  have hP := pickLoop_first_success (pickTryModel raw customConfigured primaryUploader)
    auto fn (pre ++ s :: rest) url pre s rest [] none hpreP hsP hlast
  have hBr : (uploadFileBufferModel raw customConfigured bgWin bgFinal auto fn
      (pre ++ s :: rest)).result =
      { success := true, url := some (formatUrl auto fn url), actualUploader := some s,
        attemptedUploaders := some ((([] : List String) ++ pre) ++ [s]) } := hB.1
  have hPr : (pickAndUploadFileModel raw customConfigured primaryUploader auto fn
      (pre ++ s :: rest)).result =
      { success := true, url := some (formatUrl auto fn url), actualUploader := some s,
        attemptedUploaders := some ((([] : List String) ++ pre) ++ [s]) } := hP
  refine ⟨⟨?_, ?_, by simp, List.getLast?_concat pre⟩, ?_, ?_⟩
  · rw [hBr]
  · rw [hBr]; simp
  · rw [hPr]
  · rw [hPr]; simp

theorem orchestrator_first_success_w :
    (uploadFileBufferModel demoRaw true (fun _ => none) none false "a.bin"
      ["Catbox", "Litterbox", "0x0.st"]).result.success = true ∧
    (pickAndUploadFileModel demoRaw true "Catbox" false "a.bin"
      ["Catbox", "Litterbox", "0x0.st"]).result.success = true := by
  have h := orchestrator_first_success demoRaw true (fun _ => none) none false "a.bin" "Catbox"
    ["Catbox"] "Litterbox" ["0x0.st"] "https://litter.catbox.moe/abc.bin"
    (fun _ => rfl)
    (by
      intro u hu
      have hu2 := List.mem_singleton.mp hu
      subst hu2
      exact ⟨"read ECONNRESET", by decide, by decide⟩)
    (by decide)
    (by
      intro u hu
      have hu2 := List.mem_singleton.mp hu
      subst hu2
      exact ⟨"read ECONNRESET", by decide, by decide⟩)
    (by decide)
    (by decide)
  exact ⟨h.1.1, h.2.1⟩

end BigFileUpload

namespace BigFileUpload

/-- Claim C3 (amended): the transport's precondition checks (file
missing, file empty, file unreadable) reject before any network request
is made — the outcome does not depend on the network oracle — but a
precondition failure is treated by the orchestrator like any other
failure: the next service is attempted and a background retry of the
failed service is spawned (unless it is `Custom`). -/
theorem precondition_failfast_but_retried :
    (∀ (f : FileInfo) (filePath : String) (net net2 : Unit → Except String String) (e : String),
      preconditionError f filePath = some e →
      streamFileUploadStart f filePath net = .preFail e ∧
      streamFileUploadStart f filePath net = streamFileUploadStart f filePath net2) ∧
    (∀ (raw : String → AttemptOutcome) (customConfigured : Bool)
        (bgWin : Nat → Option (String × String)) (bgFinal : Option (String × String))
        (auto : Bool) (fn : String) (u1 u2 : String) (rest : List String) (m url : String),
      tryUploaderModel raw customConfigured u1 = .fail m → isCancelMsg m = false →
      isPreconditionErrorMsg m = true → u1 ≠ "Custom" →
      tryUploaderModel raw customConfigured u2 = .ok url →
      (∀ i, bgWin i = none) →
      (uploadFileBufferModel raw customConfigured bgWin bgFinal auto fn
        (u1 :: u2 :: rest)).result.attemptedUploaders = some [u1, u2] ∧
      u1 ∈ (uploadFileBufferModel raw customConfigured bgWin bgFinal auto fn
        (u1 :: u2 :: rest)).backgroundRetries) := by
  constructor
  · intro f filePath net net2 e he
    unfold streamFileUploadStart
    rw [he]
    exact ⟨rfl, rfl⟩
  · intro raw customConfigured bgWin bgFinal auto fn u1 u2 rest m url hm hmc _hp hne hok hbg
    have hpre : ∀ u ∈ [u1], ∃ m2, tryUploaderModel raw customConfigured u = .fail m2 ∧
        isCancelMsg m2 = false := by
      intro u hu
      have hu2 := List.mem_singleton.mp hu
      subst hu2
      exact ⟨m, hm, hmc⟩
    have hlenB : ([] : List String).length + [u1].length < (u1 :: u2 :: rest).length := by
      simp
    have hB := uploadBufferLoop_first_success (tryUploaderModel raw customConfigured)
      bgWin bgFinal auto fn (u1 :: u2 :: rest) url hbg [u1] u2 rest [] [] none hpre hok hlenB
    constructor
    · have h1 : (uploadFileBufferModel raw customConfigured bgWin bgFinal auto fn
          (u1 :: u2 :: rest)).result =
          { success := true, url := some (formatUrl auto fn url), actualUploader := some u2,
            attemptedUploaders := some ((([] : List String) ++ [u1]) ++ [u2]) } := hB.1
      rw [h1]
      simp
    · have h2 : (uploadFileBufferModel raw customConfigured bgWin bgFinal auto fn
          (u1 :: u2 :: rest)).backgroundRetries = spawnFold [] [u1] := hB.2
      rw [h2]
      exact spawnFold_mem [u1] [] u1 (List.mem_singleton_self u1) hne

theorem precondition_failfast_but_retried_w :
    streamFileUploadStart { fileExists := true, size := 0, readable := true } "/tmp/f.bin"
      (fun _ => .ok "ignored") = .preFail "File is empty (0 bytes): /tmp/f.bin" ∧
    (uploadFileBufferModel demoPreRaw true (fun _ => none) none false "f.bin"
      ["Catbox", "Litterbox"]).result.attemptedUploaders = some ["Catbox", "Litterbox"] := by
  have h1 := (precondition_failfast_but_retried.1
    { fileExists := true, size := 0, readable := true } "/tmp/f.bin"
    (fun _ => .ok "ignored") (fun _ => .ok "ignored")
    "File is empty (0 bytes): /tmp/f.bin" (by decide)).1
  have h2 := (precondition_failfast_but_retried.2 demoPreRaw true (fun _ => none) none false
    "f.bin" "Catbox" "Litterbox" [] "File is empty (0 bytes): /tmp/f.bin"
    "https://litter.catbox.moe/abc.bin"
    (by decide) (by decide) (by decide) (by decide) (by decide) (fun _ => rfl)).1
  exact ⟨h1, h2⟩

/-- Claim C3 counterexample: a first service failing with the transport's
empty-file precondition error is followed by a fallback attempt against
the next service (both end up in `attemptedUploaders`) and by a spawned
background retry of the failed service, contradicting "never retried". -/
theorem precondition_failure_fallback_cx :
    preconditionError { fileExists := true, size := 0, readable := true } "/tmp/f.bin" =
      some "File is empty (0 bytes): /tmp/f.bin" ∧
    isPreconditionErrorMsg "File is empty (0 bytes): /tmp/f.bin" = true ∧
    (uploadFileBufferModel demoPreRaw true (fun _ => none) none false "f.bin"
      ["Catbox", "Litterbox"]).result.attemptedUploaders = some ["Catbox", "Litterbox"] ∧
    (uploadFileBufferModel demoPreRaw true (fun _ => none) none false "f.bin"
      ["Catbox", "Litterbox"]).backgroundRetries = ["Catbox"] := by
  refine ⟨by decide, by decide, by decide, by decide⟩

/-- Claim C4 (amended): for a declared response type of Text the URL
extractor is total — it never throws, and when every strategy fails it
returns the trimmed raw response as a last resort — but for a declared
JSON response type a parse failure or a failure to locate a URL is
rethrown rather than falling back to the raw text. -/
theorem extractUrl_total_for_text :
    (∀ (jparse : String → Option Json) (responseText : String) (urlPath : List String)
        (baseUrl : Option String),
      (extractUrlFromResponse jparse responseText "Text" urlPath baseUrl).isOk = true) ∧
    extractUrlFromResponse (fun _ => none) "  hello world  " "Text" [] none = .ok "hello world" := by
  constructor
  · intro jparse responseText urlPath baseUrl
    unfold extractUrlFromResponse
    cases hs : jsonStrategy jparse (trimStr responseText) "Text" urlPath baseUrl with
    | none => simp only [hs]; rfl
    | some r =>
      cases r with
      | ok u => simp only [hs]; rfl
      | error e => exact absurd hs (fun h => jsonStrategy_text_no_error _ _ _ _ _ h)
  · rfl

/-- Claim C4 counterexample: with a declared JSON response type and a
response body that does not parse as JSON, the extractor throws (models
the rethrown parse error) instead of returning the trimmed raw text. -/
theorem extractUrl_error_on_json :
    extractUrlFromResponse (fun _ => none) "hello" "JSON" [] none =
      .error "Unexpected token in JSON" := by
  rfl

end BigFileUpload

namespace BigFileUpload

/-- Claim C5 (amended): in `uploadFileBuffer`, every service whose
sequential attempt fails other than by cancellation gets exactly one
spawned background retry, no service ever gets a second one, and no
background retry is ever spawned for `Custom`; `pickAndUploadFile`,
however, spawns no background retries at all. -/
theorem background_retry_exactly_once :
    (∀ (raw : String → AttemptOutcome) (customConfigured : Bool)
        (bgWin : Nat → Option (String × String)) (bgFinal : Option (String × String))
        (auto : Bool) (fn : String) (pre : List String) (s : String)
        (rest : List String) (url : String),
      (∀ i, bgWin i = none) →
      (∀ u ∈ pre, ∃ m, tryUploaderModel raw customConfigured u = .fail m ∧
        isCancelMsg m = false) →
      tryUploaderModel raw customConfigured s = .ok url →
      (∀ u ∈ pre, u ≠ "Custom" →
        List.count u (uploadFileBufferModel raw customConfigured bgWin bgFinal auto fn
          (pre ++ s :: rest)).backgroundRetries = 1) ∧
      List.count "Custom" (uploadFileBufferModel raw customConfigured bgWin bgFinal auto fn
        (pre ++ s :: rest)).backgroundRetries = 0 ∧
      (∀ u, List.count u (uploadFileBufferModel raw customConfigured bgWin bgFinal auto fn
        (pre ++ s :: rest)).backgroundRetries ≤ 1)) ∧
    (∀ (raw : String → AttemptOutcome) (customConfigured : Bool)
        (bgWin : Nat → Option (String × String)) (bgFinal : Option (String × String))
        (auto : Bool) (fn : String) (us : List String),
      (∀ i, bgWin i = none) →
      (∀ u ∈ us, ∃ m, tryUploaderModel raw customConfigured u = .fail m ∧
        isCancelMsg m = false) →
      (∀ u ∈ us, u ≠ "Custom" →
        List.count u (uploadFileBufferModel raw customConfigured bgWin bgFinal auto fn
          us).backgroundRetries = 1) ∧
      List.count "Custom" (uploadFileBufferModel raw customConfigured bgWin bgFinal auto fn
        us).backgroundRetries = 0 ∧
      (∀ u, List.count u (uploadFileBufferModel raw customConfigured bgWin bgFinal auto fn
        us).backgroundRetries ≤ 1)) ∧
    (∀ (tryP : String → AttemptOutcome) (auto : Bool) (fn : String)
        (usFull remaining attempted : List String) (lastErr : Option String),
      (pickLoop tryP auto fn usFull remaining attempted lastErr).backgroundRetries = []) := by
  refine ⟨?_, ?_, ?_⟩
  · intro raw customConfigured bgWin bgFinal auto fn pre s rest url hbg hpre hs
    have hlenB : ([] : List String).length + pre.length < (pre ++ s :: rest).length := by
      simp
    have hB := (uploadBufferLoop_first_success (tryUploaderModel raw customConfigured)
      bgWin bgFinal auto fn (pre ++ s :: rest) url hbg pre s rest [] [] none hpre hs hlenB).2
    have hbgr : (uploadFileBufferModel raw customConfigured bgWin bgFinal auto fn
        (pre ++ s :: rest)).backgroundRetries = spawnFold [] pre := hB
    rw [hbgr]
    refine ⟨?_, ?_, ?_⟩
    · intro u hu hne
      exact List.count_eq_one_of_mem (spawnFold_nodup pre [] List.nodup_nil)
        (spawnFold_mem pre [] u hu hne)
    · exact List.count_eq_zero.mpr (spawnFold_custom_not_mem pre [] (by simp))
    · intro u
      exact List.nodup_iff_count_le_one.mp (spawnFold_nodup pre [] List.nodup_nil) u
  · intro raw customConfigured bgWin bgFinal auto fn us hbg hfail
    have hB := uploadBufferLoop_all_fail (tryUploaderModel raw customConfigured)
      bgWin bgFinal auto fn us hbg us [] [] none hfail (by simp)
    have hbgr : (uploadFileBufferModel raw customConfigured bgWin bgFinal auto fn
        us).backgroundRetries = spawnFold [] us := hB
    rw [hbgr]
    refine ⟨?_, ?_, ?_⟩
    · intro u hu hne
      exact List.count_eq_one_of_mem (spawnFold_nodup us [] List.nodup_nil)
        (spawnFold_mem us [] u hu hne)
    · exact List.count_eq_zero.mpr (spawnFold_custom_not_mem us [] (by simp))
    · intro u
      exact List.nodup_iff_count_le_one.mp (spawnFold_nodup us [] List.nodup_nil) u
  · intro tryP auto fn usFull remaining attempted lastErr
    exact pickLoop_bg_empty tryP auto fn usFull remaining attempted lastErr

theorem background_retry_exactly_once_w :
    List.count "Catbox" (uploadFileBufferModel demoRaw true (fun _ => none) none false "a.bin"
      ["Catbox", "Litterbox", "0x0.st"]).backgroundRetries = 1 ∧
    List.count "Custom" (uploadFileBufferModel demoRaw true (fun _ => none) none false "a.bin"
      ["Catbox", "Litterbox", "0x0.st"]).backgroundRetries = 0 := by
  have h := (background_retry_exactly_once.1 demoRaw true (fun _ => none) none false "a.bin"
    ["Catbox"] "Litterbox" ["0x0.st"] "https://litter.catbox.moe/abc.bin"
    (fun _ => rfl)
    (by
      intro u hu
      have hu2 := List.mem_singleton.mp hu
      subst hu2
      exact ⟨"read ECONNRESET", by decide, by decide⟩)
    (by decide))
  exact ⟨h.1 "Catbox" (by decide) (by decide), h.2.1⟩

/-- Claim C5 counterexample: in `pickAndUploadFile`, a sequential attempt
failing other than by cancellation spawns no background retry at all,
contradicting "exactly one background retry per failed service". -/
theorem pick_spawns_no_background_retry :
    pickTryModel demoRaw true "Catbox" "Catbox" = .fail "read ECONNRESET" ∧
    isCancelMsg "read ECONNRESET" = false ∧
    (pickAndUploadFileModel demoRaw true "Catbox" false "a.bin"
      ["Catbox", "Litterbox"]).result.success = true ∧
    (pickAndUploadFileModel demoRaw true "Catbox" false "a.bin"
      ["Catbox", "Litterbox"]).backgroundRetries = [] := by
  refine ⟨by decide, by decide, by decide, by decide⟩

/-- Claim C6: the streaming transport accumulates at most
`MAX_RESPONSE_SIZE` (1 MiB) of response body, any response whose total
size exceeds the cap sets the truncation flag (the excess bytes are
dropped), and a truncated response is rejected with the truncation error
regardless of the HTTP status code, 2xx included. -/
theorem responseCap_spec :
    (∀ chunks : List String, (accumulateResponse chunks).1.length ≤ MAX_RESPONSE_SIZE) ∧
    (∀ chunks : List String, MAX_RESPONSE_SIZE < (chunks.map String.length).sum →
      (accumulateResponse chunks).2 = true) ∧
    (∀ (statusCode : Nat) (responseData : String),
      responseEnd false true statusCode responseData =
        .truncatedError ("Response exceeded maximum size (" ++ toString MAX_RESPONSE_SIZE ++
          " bytes) and was truncated. The upload may have succeeded but the response could not be processed.")) := by
  refine ⟨?_, ?_, ?_⟩
  · intro chunks
    exact respAccum_len_le chunks ("", false) (by simp [MAX_RESPONSE_SIZE])
  · intro chunks hgt
    cases htr : (accumulateResponse chunks).2 with
    | true => rfl
    | false =>
      exfalso
      have hf : (List.foldl responseDataStep ("", false) chunks).2 = false := htr
      obtain ⟨hlen, -⟩ := respAccum_untruncated_total chunks ("", false) hf
      have hle := respAccum_len_le chunks ("", false) (by simp [MAX_RESPONSE_SIZE])
      omega
  · intro statusCode responseData
    rfl

theorem responseCap_spec_w :
    MAX_RESPONSE_SIZE < (([String.mk (List.replicate 1048577 'a')]).map String.length).sum ∧
    (accumulateResponse [String.mk (List.replicate 1048577 'a')]).2 = true := by
  have hgt : MAX_RESPONSE_SIZE < (([String.mk (List.replicate 1048577 'a')]).map String.length).sum := by
    show MAX_RESPONSE_SIZE < ([(String.mk (List.replicate 1048577 'a')).length]).sum
    have hlen : (String.mk (List.replicate 1048577 'a')).length = 1048577 := by
      show (List.replicate 1048577 'a').length = 1048577
      exact List.length_replicate 1048577 'a'
    rw [hlen]
    simp [MAX_RESPONSE_SIZE]
  exact ⟨hgt, responseCap_spec.2.1 _ hgt⟩

/-- Claim C7: the URL validator rejects a loopback address, the
link-local metadata address, a private class-A address and an ftp URL,
and accepts a normal https URL. -/
theorem validateUploadUrl_concrete_cases :
    validateUploadUrl "http://127.0.0.1/x" = false ∧
    validateUploadUrl "http://169.254.169.254/" = false ∧
    validateUploadUrl "http://10.0.0.5/f" = false ∧
    validateUploadUrl "ftp://host/f" = false ∧
    validateUploadUrl "https://example.com/abc123" = true := by
  decide

/-- Claim C8: `sanitizeHeaders` removes every entry whose name
case-insensitively (after trimming) equals Authorization, Cookie, Host or
X-Forwarded-For, and preserves unchanged any non-blocked, nonempty-named
entry (such as `X-My-Key`) whose value contains no newline. -/
theorem sanitizeHeaders_blocklist_and_preserve (headers : List (String × String)) :
    (∀ k v, (k, v) ∈ sanitizeHeaders headers →
      lowerTrimKey k ∉ (["authorization", "cookie", "host", "x-forwarded-for"] : List String)) ∧
    (∀ k v, BLOCKED_HEADERS.contains (lowerTrimKey k) = false → k ≠ "" → trimStr k ≠ "" →
      strContainsChar v '\n' = false → strContainsChar v '\r' = false →
      (k, v) ∈ headers → (k, v) ∈ sanitizeHeaders headers) := by
  constructor
  · intro k v hmem hfour
    induction headers with
    | nil => simp [sanitizeHeaders] at hmem
    | cons h rest ih =>
      obtain ⟨key, value⟩ := h
      simp only [sanitizeHeaders] at hmem
      split at hmem
      · exact ih hmem
      · split at hmem
        · exact ih hmem
        · split at hmem
          · rcases List.mem_cons.mp hmem with heq | hmem2
            · next hnotblocked _ _ =>
                have hk : k = key := congrArg Prod.fst heq
                exact hnotblocked (blocked_of_mem_four _ (hk ▸ hfour))
            · exact ih hmem2
          · exact ih hmem
  · intro k v hnb hk1 hk2 hn hr hmem
    induction headers with
    | nil => simp at hmem
    | cons h rest ih =>
      obtain ⟨key, value⟩ := h
      rcases List.mem_cons.mp hmem with heq | hmem2
      · obtain ⟨hkk, hvv⟩ := Prod.mk.injEq .. ▸ heq
        subst hkk; subst hvv
        simp only [sanitizeHeaders, hnb, hn, hr]
        simp [hk1, hk2]
      · simp only [sanitizeHeaders]
        split
        · exact ih hmem2
        · split
          · exact ih hmem2
          · split
            · exact List.mem_cons_of_mem _ (ih hmem2)
            · exact ih hmem2

theorem sanitizeHeaders_blocklist_and_preserve_w :
    ("X-My-Key", "abc123") ∈ sanitizeHeaders
      [("Authorization", "Bearer tok"), ("cOoKiE", "a=b"), ("HOST", "evil.example"),
       ("X-Forwarded-For", "1.2.3.4"), ("X-My-Key", "abc123")] :=
  (sanitizeHeaders_blocklist_and_preserve _).2 "X-My-Key" "abc123"
    (by decide) (by decide) (by decide) (by decide) (by decide) (by decide)

/-- Claim C9: `cancelUpload` always adds the id to the cancelled set;
it returns success for every id with no registered active request; and a
failure result can only arise when the cleanup of an actually active
request throws. -/
theorem cancelUpload_spec (st : NativeState) (uploadId : String) :
    uploadId ∈ (cancelUpload st uploadId).1.cancelledUploads ∧
    ((st.activeRequests.lookup uploadId).isNone →
      (cancelUpload st uploadId).2 = { success := true, error := none }) ∧
    ((cancelUpload st uploadId).2.success = false →
      st.activeRequests.lookup uploadId = some true) := by
  have hmem : uploadId ∈ setAdd st.cancelledUploads uploadId := by
    unfold setAdd
    split
    · next hc => exact List.mem_of_elem_eq_true hc
    · exact List.mem_append_right _ (List.mem_singleton_self _)
  unfold cancelUpload
  cases hlook : st.activeRequests.lookup uploadId with
  | none => simp [hlook, hmem]
  | some b =>
    cases b with
    | true => simp [hlook, hmem]
    | false => simp [hlook, hmem]

theorem cancelUpload_spec_w :
    "u1" ∈ (cancelUpload { cancelledUploads := [], activeRequests := [], latestProgressId := none } "u1").1.cancelledUploads ∧
    (cancelUpload { cancelledUploads := [], activeRequests := [], latestProgressId := none } "u1").2 = { success := true, error := none } := by
  have h := cancelUpload_spec { cancelledUploads := [], activeRequests := [], latestProgressId := none } "u1"
  exact ⟨h.1, h.2.1 (by decide)⟩

/-- Claim C10: every entry kept by `sanitizeHeaders` has a value free of
carriage returns and line feeds, whatever the header's name. -/
theorem sanitizeHeaders_output_no_crlf (headers : List (String × String))
    (k v : String) (hmem : (k, v) ∈ sanitizeHeaders headers) :
    strContainsChar v '\n' = false ∧ strContainsChar v '\r' = false := by
  induction headers with
  | nil => simp [sanitizeHeaders] at hmem
  | cons h rest ih =>
    obtain ⟨key, value⟩ := h
    simp only [sanitizeHeaders] at hmem
    split at hmem
    · exact ih hmem
    · split at hmem
      · exact ih hmem
      · split at hmem
        · rcases List.mem_cons.mp hmem with heq | hmem2
          · obtain ⟨hk, hv⟩ := Prod.mk.injEq .. ▸ heq
            next hcond =>
              subst hv
              simp only [Bool.and_eq_true, Bool.not_eq_true'] at hcond
              exact ⟨hcond.1, hcond.2⟩
          · exact ih hmem2
        · exact ih hmem

theorem sanitizeHeaders_output_no_crlf_w :
    strContainsChar "tok123" '\n' = false ∧ strContainsChar "tok123" '\r' = false :=
  sanitizeHeaders_output_no_crlf [("X-My-Key", "tok123")] "X-My-Key" "tok123" (by decide)

end BigFileUpload
